import Mathlib

/-!
Shallow embedding of the copybridge-server confidentiality core
(package `clipboard`, the sqlite `database` service and the HTTP
`server.GetHandler` flow) together with proofs of the specification
claims about it.

Go byte strings are modelled as lists of bytes (`Fin 256`).  External
library primitives that the core calls (encoding/base64, x/crypto/scrypt,
crypto/aes + cipher GCM, x/crypto/bcrypt) are modelled as follows:

* base64 StdEncoding is implemented concretely (alphabet, 3-byte to
  4-char quanta, `=` padding) so that encode/decode is a real inverse;
* scrypt, AES-GCM and bcrypt are perfect-cryptography symbolic models:
  the derived key is determined by (password, salt), a GCM sealed box is
  an injective framing of (key, nonce) over the plaintext whose `Open`
  verifies the framing (the authentication-tag check) and strips it, and
  a bcrypt hash is an injective framing of (bcrypt salt, password) whose
  compare re-checks the embedded password.  Their error behaviour mirrors
  the Go libraries: GCM `Open` fails with one fixed authentication error
  for every mismatch, base64 decoding fails on corrupt input, and the
  scrypt cost-parameter validation is reproduced.

The repository functions themselves (`NewClipboard`, `HashPassword`,
`Clipboard.Authenticate`, `deriveKey`, `Clipboard.Encrypt`,
`Clipboard.Decrypt`, `service.Update`, `Server.GetHandler`) are direct
transcriptions of the Go source; the in-place mutation of the
`*Clipboard` receiver becomes explicit state passing, so a method that
returns `error` becomes a function returning the updated record paired
with an `Option GoErr`.  The random draws that `Encrypt` takes from
`crypto/rand` (a 16-byte salt and a nonce of the cipher's nonce size)
are passed as explicit arguments.
-/

/-- Go errors that the modelled paths can produce.  `corruptBase64` is
`base64.CorruptInputError`, `gcmAuthFailure` is the single fixed error
value `cipher: message authentication failed` that GCM `Open` returns on
every tag-verification failure, and `scryptParamError` is the parameter
validation error of `scrypt.Key`. -/
inductive GoErr
  | corruptBase64
  | gcmAuthFailure
  | scryptParamError
deriving DecidableEq, Repr

/-- A Go byte. -/
abbrev Byte := Fin 256

/-- A Go byte slice or string (Go strings are immutable byte strings). -/
abbrev Bytes := List Byte

/-- Character `i` of the standard base64 alphabet
`A-Z a-z 0-9 + /`, as its ASCII byte. -/
def b64Char (n : Fin 64) : Byte :=
  if h : n.val < 26 then ⟨65 + n.val, by omega⟩
  else if h2 : n.val < 52 then ⟨97 + (n.val - 26), by omega⟩
  else if h3 : n.val < 62 then ⟨48 + (n.val - 52), by omega⟩
  else if n.val = 62 then ⟨43, by omega⟩
  else ⟨47, by omega⟩

/-- Inverse of the standard base64 alphabet: maps an ASCII byte back to
its 6-bit value, or `none` for a byte outside the alphabet. -/
def b64DecChar (b : Byte) : Option (Fin 64) :=
  if h : 65 ≤ b.val ∧ b.val ≤ 90 then some ⟨b.val - 65, by omega⟩
  else if h2 : 97 ≤ b.val ∧ b.val ≤ 122 then some ⟨b.val - 97 + 26, by omega⟩
  else if h3 : 48 ≤ b.val ∧ b.val ≤ 57 then some ⟨b.val - 48 + 52, by omega⟩
  else if b.val = 43 then some ⟨62, by omega⟩
  else if b.val = 47 then some ⟨63, by omega⟩
  else none

/-- Model of `base64.StdEncoding.EncodeToString`: 3-byte groups become 4
alphabet characters; a trailing group of 1 or 2 bytes is padded with
`=` (ASCII 61). -/
def b64encode : Bytes → Bytes
  | [] => []
  | [a] =>
      [b64Char ⟨a.val / 4, by have := a.isLt; omega⟩,
       b64Char ⟨a.val % 4 * 16, by omega⟩, 61, 61]
  | [a, b] =>
      [b64Char ⟨a.val / 4, by have := a.isLt; omega⟩,
       b64Char ⟨a.val % 4 * 16 + b.val / 16, by have := b.isLt; omega⟩,
       b64Char ⟨b.val % 16 * 4, by omega⟩, 61]
  | a :: b :: c :: rest =>
      b64Char ⟨a.val / 4, by have := a.isLt; omega⟩ ::
      b64Char ⟨a.val % 4 * 16 + b.val / 16, by have := b.isLt; omega⟩ ::
      b64Char ⟨b.val % 16 * 4 + c.val / 64, by have := c.isLt; omega⟩ ::
      b64Char ⟨c.val % 64, by omega⟩ :: b64encode rest

/-- Model of `base64.StdEncoding.DecodeString`: consumes 4-character
quanta, allows `=` padding only in the final quantum, and fails with
`GoErr.corruptBase64` on any malformed input. -/
def b64decode : Bytes → Except GoErr Bytes
  | [] => .ok []
  | c1 :: c2 :: c3 :: c4 :: rest =>
      match b64DecChar c1, b64DecChar c2 with
      | some n1, some n2 =>
          if c3 = (61 : Byte) then
            if c4 = (61 : Byte) ∧ rest = [] then
              .ok [⟨n1.val * 4 + n2.val / 16, by have := n1.isLt; have := n2.isLt; omega⟩]
            else .error .corruptBase64
          else
            match b64DecChar c3 with
            | some n3 =>
                if c4 = (61 : Byte) then
                  if rest = [] then
                    .ok [⟨n1.val * 4 + n2.val / 16, by have := n1.isLt; have := n2.isLt; omega⟩,
                         ⟨n2.val % 16 * 16 + n3.val / 4, by have := n3.isLt; omega⟩]
                  else .error .corruptBase64
                else
                  match b64DecChar c4 with
                  | some n4 =>
                      match b64decode rest with
                      | .ok tail =>
                          .ok (⟨n1.val * 4 + n2.val / 16, by have := n1.isLt; have := n2.isLt; omega⟩ ::
                               ⟨n2.val % 16 * 16 + n3.val / 4, by have := n3.isLt; omega⟩ ::
                               ⟨n3.val % 4 * 64 + n4.val, by have := n3.isLt; have := n4.isLt; omega⟩ :: tail)
                      | .error e => .error e
                  | none => .error .corruptBase64
            | none => .error .corruptBase64
      | _, _ => .error .corruptBase64
  | _ => .error .corruptBase64

/-- Decoding inverts the base64 alphabet. -/
theorem b64DecChar_b64Char : ∀ n : Fin 64, b64DecChar (b64Char n) = some n := by
  decide

/-- No alphabet character is the padding byte `=` (61). -/
theorem b64Char_ne_61 : ∀ n : Fin 64, b64Char n ≠ (61 : Byte) := by
  decide

/-- Building a byte from an arithmetic expression equal to the value of
an existing byte gives back that byte. -/
theorem byteMkEq {x : Nat} {h : x < 256} {b : Byte} (hx : x = b.val) : (⟨x, h⟩ : Byte) = b :=
  Fin.ext hx

/-- Round trip of the base64 model: decoding an encoded byte string
recovers it exactly. -/
theorem b64decode_b64encode (bs : Bytes) : b64decode (b64encode bs) = .ok bs := by
  match bs with
  | [] => rfl
  | [a] =>
      have ha := a.isLt
      simp only [b64encode, b64decode, b64DecChar_b64Char]
      norm_num
      exact byteMkEq (by omega)
  | [a, b] =>
      have ha := a.isLt
      have hb := b.isLt
      simp only [b64encode, b64decode, b64DecChar_b64Char]
      rw [if_neg (b64Char_ne_61 _)]
      norm_num
      exact ⟨byteMkEq (by omega), byteMkEq (by omega)⟩
  | a :: b :: c :: rest =>
      have ha := a.isLt
      have hb := b.isLt
      have hc := c.isLt
      have ih := b64decode_b64encode rest
      simp only [b64encode, b64decode, b64DecChar_b64Char]
      rw [if_neg (b64Char_ne_61 _), if_neg (b64Char_ne_61 _)]
      simp only [b64DecChar_b64Char, ih]
      norm_num
      exact ⟨byteMkEq (by omega), byteMkEq (by omega), byteMkEq (by omega)⟩

/-- The base64 encoder is injective (it has a left inverse). -/
theorem b64encode_injective {x y : Bytes} (h : b64encode x = b64encode y) : x = y := by
  have hx := b64decode_b64encode x
  have hy := b64decode_b64encode y
  rw [h, hy] at hx
  exact ((Except.ok.injEq _ _).mp hx).symm

/-- Encoding a non-empty byte string yields a non-empty string. -/
theorem b64encode_ne_nil {x : Bytes} (h : x ≠ []) : b64encode x ≠ [] := by
  match x with
  | [] => exact absurd rfl h
  | [a] => simp [b64encode]
  | [a, b] => simp [b64encode]
  | a :: b :: c :: rest => simp [b64encode]

/-- Self-delimiting framing of one byte-string segment, used only inside
the symbolic cryptography models: byte 255 is escaped as 255 255 and the
segment is terminated by 255 254, so a segment can be recovered
unambiguously from any byte string it is a prefix of. -/
def escSeg : Bytes → Bytes
  | [] => [255, 254]
  | b :: s => if b = (255 : Byte) then 255 :: 255 :: escSeg s else b :: escSeg s

/-- Parses one framed segment off the front of a byte string, returning
the segment and the remainder, or `none` when the framing is invalid. -/
def unescSeg : Bytes → Option (Bytes × Bytes)
  | [] => none
  | [_] => none
  | b :: b2 :: rest2 =>
      if b = (255 : Byte) then
        if b2 = (254 : Byte) then some ([], rest2)
        else if b2 = (255 : Byte) then
          match unescSeg rest2 with
          | some (s, r) => some ((255 : Byte) :: s, r)
          | none => none
        else none
      else
        match unescSeg (b2 :: rest2) with
        | some (s, r) => some (b :: s, r)
        | none => none

/-- Parsing inverts framing, leaving the appended remainder intact. -/
theorem unescSeg_escSeg (s r : Bytes) : unescSeg (escSeg s ++ r) = some (s, r) := by
  induction s with
  | nil => simp [escSeg, unescSeg]
  | cons b s ih =>
      by_cases hb : b = (255 : Byte)
      · subst hb
        simp [escSeg, unescSeg, ih]
      · have hne : escSeg s ++ r ≠ [] := by
          cases s
          · simp [escSeg]
          · rw [escSeg]
            split <;> simp
        obtain ⟨x, xs, hx⟩ := List.exists_cons_of_ne_nil hne
        rw [escSeg, if_neg hb, List.cons_append, hx, unescSeg]
        rw [← hx, ih]
        simp [hb]

/-- Symbolic 32-byte key produced by `scrypt.Key`: in the perfect-KDF
model the key is determined by, and determines, the (password, salt)
pair that derived it. -/
structure ScryptKey where
  password : Bytes
  salt : Bytes
deriving DecidableEq, Repr

/-- Model of `scrypt.Key(password, salt, N, r, p, keyLen)`: the library
validates the cost parameter `N` (it must be a power of two greater
than one) and derives a key from any salt, empty included — the salt is
never validated. -/
def scryptKey (password salt : Bytes) (N r p keyLen : Nat) : Except GoErr ScryptKey :=
  if N ≤ 1 ∨ N &&& (N - 1) ≠ 0 then .error .scryptParamError
  else .ok { password := password, salt := salt }

/-- Transcription of `deriveKey` (part_000): generates a key from the
given password and salt using scrypt with `N = 1<<15`, `r = 8`, `p = 1`
and a 32-byte key length. -/
def deriveKey (password salt : Bytes) : Except GoErr ScryptKey :=
  scryptKey password salt (2 ^ 15) 8 1 32

/-- With the fixed cost parameters of the source, key derivation always
succeeds and yields the key determined by (password, salt). -/
theorem deriveKey_eq (password salt : Bytes) :
    deriveKey password salt = .ok { password := password, salt := salt } := by
  have h1 : ¬(2 ^ 15 ≤ 1 ∨ (2 ^ 15 : Nat) &&& (2 ^ 15 - 1) ≠ 0) := by decide
  simp [deriveKey, scryptKey, h1]
  decide

/-- The nonce size of AES-GCM, `aesgcm.NonceSize()` in the source. -/
def gcmNonceSize : Nat := 12

/-- Symbolic model of `aesgcm.Seal(nil, nonce, plaintext, nil)`: the
sealed box binds the key and nonce to the plaintext.  It is modelled as
an injective framing (key password, key salt and nonce as framed
segments, then the plaintext), which plays the role of the GCM
authentication tag. -/
def gcmSeal (key : ScryptKey) (nonce plaintext : Bytes) : Bytes :=
  escSeg key.password ++ (escSeg key.salt ++ (escSeg nonce ++ plaintext))

/-- Symbolic model of `aesgcm.Open(nil, nonce, ciphertext, nil)`: the
framing embedded in the sealed box is checked against the supplied key
and nonce (the tag verification); on any mismatch the one fixed error
`cipher: message authentication failed` is returned, revealing nothing
about which input was wrong. -/
def gcmOpen (key : ScryptKey) (nonce ct : Bytes) : Except GoErr Bytes :=
  match unescSeg ct with
  | some (pw, r1) =>
      match unescSeg r1 with
      | some (ksalt, r2) =>
          match unescSeg r2 with
          | some (n, rest) =>
              if pw = key.password ∧ ksalt = key.salt ∧ n = nonce then .ok rest
              else .error .gcmAuthFailure
          | none => .error .gcmAuthFailure
      | none => .error .gcmAuthFailure
  | none => .error .gcmAuthFailure

/-- Opening a sealed box with the sealing key and nonce recovers the
plaintext. -/
theorem gcmOpen_gcmSeal (key : ScryptKey) (nonce pt : Bytes) :
    gcmOpen key nonce (gcmSeal key nonce pt) = .ok pt := by
  simp [gcmOpen, gcmSeal, unescSeg_escSeg]

/-- Opening a sealed box with a key derived from a different password
fails with the authentication error. -/
theorem gcmOpen_wrong_password (key key2 : ScryptKey) (nonce nonce2 pt : Bytes)
    (h : key2.password ≠ key.password) :
    gcmOpen key2 nonce2 (gcmSeal key nonce pt) = .error .gcmAuthFailure := by
  simp [gcmOpen, gcmSeal, unescSeg_escSeg]
  intro hc
  exact absurd hc.symm h

/-- Result of `bcrypt.CompareHashAndPassword`: `nil` (success), the
mismatched-password error, or a malformed-hash error. -/
inductive BcryptCmp
  | cmpOk
  | mismatch
  | invalidHash
deriving DecidableEq, Repr

/-- Symbolic model of `bcrypt.GenerateFromPassword`: a well-formed hash
is the marker byte `$` (36) followed by the framed bcrypt salt (drawn
freshly by the library on each call) and the password it certifies. -/
def bcryptHash (bsalt password : Bytes) : Bytes :=
  36 :: (escSeg bsalt ++ password)

/-- Symbolic model of `bcrypt.CompareHashAndPassword`: a hash without
the marker byte or with invalid framing is malformed
(`invalidHash`, the library's hash-format errors); a well-formed hash
either certifies the given password (`cmpOk`) or certifies another
(`mismatch`, the library's `ErrMismatchedHashAndPassword`). -/
def bcryptCompare (hash password : Bytes) : BcryptCmp :=
  match hash with
  | h0 :: rest =>
      if h0 = (36 : Byte) then
        match unescSeg rest with
        | some (_, stored) => if stored = password then .cmpOk else .mismatch
        | none => .invalidHash
      else .invalidHash
  | [] => .invalidHash

/-- Comparing a generated hash against the password that generated it
succeeds. -/
theorem bcryptCompare_bcryptHash (bsalt password : Bytes) :
    bcryptCompare (bcryptHash bsalt password) password = .cmpOk := by
  simp [bcryptCompare, bcryptHash, unescSeg_escSeg]

/-- Comparing a generated hash against a different password reports a
mismatch. -/
theorem bcryptCompare_wrong (bsalt password other : Bytes) (h : other ≠ password) :
    bcryptCompare (bcryptHash bsalt password) other = .mismatch := by
  simp [bcryptCompare, bcryptHash, unescSeg_escSeg]
  exact fun hc => h hc.symm

/-- The `Clipboard` struct of package `clipboard`, with the `Id` column
the database layer reads and writes (`c.Id`).  Go strings are byte
strings; the zero value of a string field is the empty string `[]`. -/
structure Clipboard where
  Id : Int := 0
  Name : Bytes := []
  DataType : Bytes := []
  Data : Bytes := []
  IsEncrypted : Bool := false
  PasswordHash : Bytes := []
  Salt : Bytes := []
  Nonce : Bytes := []
deriving DecidableEq, Repr

/-- Transcription of `NewClipboard(name, dataType, data)`: the remaining
fields keep their Go zero values. -/
def NewClipboard (name dataType data : Bytes) : Clipboard :=
  { Name := name, DataType := dataType, Data := data, IsEncrypted := false }

/-- Transcription of `HashPassword(password)`: hashes the password with
bcrypt.  The bcrypt salt that the library draws internally is passed
explicitly; the cost-parameter error branch of `GenerateFromPassword`
is unreachable with `bcrypt.DefaultCost`. -/
def HashPassword (password bcryptSalt : Bytes) : Bytes :=
  bcryptHash bcryptSalt password

/-- Transcription of `Clipboard.Authenticate(password)`: the boolean
`bcrypt.CompareHashAndPassword(hash, password) == nil`. -/
def Clipboard.Authenticate (c : Clipboard) (password : Bytes) : Bool :=
  match bcryptCompare c.PasswordHash password with
  | .cmpOk => true
  | _ => false

/-- Transcription of `Clipboard.Encrypt(password)`.  The two random
draws of the source (`io.ReadFull(rand.Reader, salt)` on a 16-byte
buffer, done only when `c.Salt == ""`, and
`io.ReadFull(rand.Reader, nonce)` on a buffer of the cipher's nonce
size) are the explicit arguments `freshSalt` and `freshNonce`; their
never-failing error branches and the unreachable `aes.NewCipher` /
`cipher.NewGCM` error branches (scrypt returns the requested 32-byte
key) are not modelled.  The updated receiver is returned together with
the `error` result. -/
def Clipboard.Encrypt (c : Clipboard) (password freshSalt freshNonce : Bytes) :
    Clipboard × Option GoErr :=
  let c := if c.Salt = [] then { c with Salt := b64encode freshSalt } else c
  match b64decode c.Salt with
  | .error e => (c, some e)
  | .ok decodedSalt =>
      match deriveKey password decodedSalt with
      | .error e => (c, some e)
      | .ok key =>
          let c := { c with Nonce := b64encode freshNonce }
          let ciphertext := gcmSeal key freshNonce c.Data
          ({ c with Data := b64encode ciphertext, IsEncrypted := true }, none)

/-- Transcription of `Clipboard.Decrypt(password)`: decodes the salt,
derives the key, decodes nonce and ciphertext, opens the sealed box,
and only on success stores the plaintext and clears the encrypted flag.
The updated receiver is returned together with the `error` result. -/
def Clipboard.Decrypt (c : Clipboard) (password : Bytes) : Clipboard × Option GoErr :=
  match b64decode c.Salt with
  | .error e => (c, some e)
  | .ok decodedSalt =>
      match deriveKey password decodedSalt with
      | .error e => (c, some e)
      | .ok key =>
          match b64decode c.Nonce with
          | .error e => (c, some e)
          | .ok decodedNonce =>
              match b64decode c.Data with
              | .error e => (c, some e)
              | .ok decodedCiphertext =>
                  match gcmOpen key decodedNonce decodedCiphertext with
                  | .error e => (c, some e)
                  | .ok plaintext =>
                      ({ c with Data := plaintext, IsEncrypted := false }, none)

/-- One row of the `clipboards` table (see the `CREATE TABLE` in the
database service): `password_hash`, `salt` and `nonce` are nullable. -/
structure Row where
  id : Int
  name : Bytes
  rowType : Bytes
  data : Bytes
  is_encrypted : Bool
  password_hash : Option Bytes
  salt : Option Bytes
  nonce : Option Bytes
deriving DecidableEq, Repr

/-- Transcription of the SQL statement run by `service.Update`:
`UPDATE clipboards SET name = ?, type = ?, data = ?, nonce = ? WHERE id = ?`
applied to a single row.  Only rows whose `id` matches `c.Id` are
modified, and only the four listed columns are set (the bound `nonce`
parameter is the non-null string `c.Nonce`). -/
def updateRowSql (c : Clipboard) (row : Row) : Row :=
  if row.id = c.Id then
    { row with name := c.Name, rowType := c.DataType, data := c.Data, nonce := some c.Nonce }
  else row

/-- Transcription of `service.Update(c)`: executes the row update
against every row of the stored table. -/
def service.Update (c : Clipboard) (table : List Row) : List Row :=
  table.map (updateRowSql c)

/-- HTTP outcome of `Server.GetHandler`, one constructor per `return`
path of the source: 400 for a bad id, 500 for a database error, 404 for
a missing record, 401 for missing credentials or failed authentication,
500 for a failed decrypt, and the JSON-marshalled record on success. -/
inductive GetResponse
  | badRequest
  | internalDbError
  | notFound
  | unauthorized
  | decryptFailed
  | body (c : Clipboard)
deriving DecidableEq, Repr

/-- Transcription of `Server.GetHandler`.  Inputs are the parsed id
path parameter (`strconv.Atoi` result), the `s.db.Get(id)` result and
the password of the basic-auth header when present.  The result is the
HTTP outcome, the in-memory record after the handler ran (when one was
loaded), and whether `c.Decrypt` was invoked. -/
def Server.GetHandler (idParam : Option Int) (dbGet : Except GoErr (Option Clipboard))
    (auth : Option Bytes) : GetResponse × Option Clipboard × Bool :=
  match idParam with
  | none => (.badRequest, none, false)
  | some _ =>
      match dbGet with
      | .error _ => (.internalDbError, none, false)
      | .ok none => (.notFound, none, false)
      | .ok (some c) =>
          if c.IsEncrypted then
            match auth with
            | none => (.unauthorized, some c, false)
            | some password =>
                if ¬ c.Authenticate password then (.unauthorized, some c, false)
                else
                  match c.Decrypt password with
                  | (c2, some _) => (.decryptFailed, some c2, true)
                  | (c2, none) => (.body c2, some c2, true)
          else (.body c, some c, false)

/-- Helper: on a record with an empty salt, `Encrypt` generates and
stores the fresh salt and succeeds. -/
theorem encrypt_emptySalt (c : Clipboard) (hs : c.Salt = []) (pw fs fn : Bytes) :
    c.Encrypt pw fs fn =
      ({ c with Salt := b64encode fs, Nonce := b64encode fn,
                Data := b64encode (gcmSeal ⟨pw, fs⟩ fn c.Data), IsEncrypted := true }, none) := by
  simp [Clipboard.Encrypt, hs, b64decode_b64encode, deriveKey_eq]

/-- Helper: on a record whose non-empty salt decodes, `Encrypt` keeps
the salt and succeeds. -/
theorem encrypt_goodSalt (c : Clipboard) (pw fs fn ds : Bytes)
    (hs : c.Salt ≠ []) (hds : b64decode c.Salt = .ok ds) :
    c.Encrypt pw fs fn =
      ({ c with Nonce := b64encode fn,
                Data := b64encode (gcmSeal ⟨pw, ds⟩ fn c.Data), IsEncrypted := true }, none) := by
  simp [Clipboard.Encrypt, hs, hds, deriveKey_eq]

/-- Helper: on a record whose non-empty salt fails to decode, `Encrypt`
fails and leaves the record as it was. -/
theorem encrypt_badSalt (c : Clipboard) (pw fs fn : Bytes) (e : GoErr)
    (hs : c.Salt ≠ []) (hds : b64decode c.Salt = .error e) :
    c.Encrypt pw fs fn = (c, some e) := by
  simp [Clipboard.Encrypt, hs, hds]

/-- Helper: `Decrypt` on a record in the shape `Encrypt` produces, with
the password whose key sealed it, recovers the plaintext. -/
theorem decrypt_of_shape (c : Clipboard) (pw ds fn pt : Bytes)
    (hsalt : b64decode c.Salt = .ok ds)
    (hnonce : c.Nonce = b64encode fn)
    (hdata : c.Data = b64encode (gcmSeal ⟨pw, ds⟩ fn pt)) :
    c.Decrypt pw = ({ c with Data := pt, IsEncrypted := false }, none) := by
  simp [Clipboard.Decrypt, hsalt, deriveKey_eq, hnonce, hdata, b64decode_b64encode,
    gcmOpen_gcmSeal]

/-- Helper: `Decrypt` on a record in the shape `Encrypt` produces, with
a key derived from any other password, fails with the one GCM
authentication error and leaves the record as it was. -/
theorem decrypt_of_shape_wrong (c : Clipboard) (p1 p2 ds fn pt : Bytes)
    (hsalt : b64decode c.Salt = .ok ds)
    (hnonce : c.Nonce = b64encode fn)
    (hdata : c.Data = b64encode (gcmSeal ⟨p1, ds⟩ fn pt))
    (hne : p2 ≠ p1) :
    c.Decrypt p2 = (c, some .gcmAuthFailure) := by
  have hopen : gcmOpen ⟨p2, ds⟩ fn (gcmSeal ⟨p1, ds⟩ fn pt) = .error .gcmAuthFailure :=
    gcmOpen_wrong_password ⟨p1, ds⟩ ⟨p2, ds⟩ fn fn pt hne
  simp [Clipboard.Decrypt, hsalt, deriveKey_eq, hnonce, hdata, b64decode_b64encode, hopen]

/-- C1: for every password P and plaintext M, encrypting a record
holding M with P via `Clipboard.Encrypt` (which derives a key from P
and a salt and seals with AES-GCM under a fresh nonce) and then
decrypting the resulting record with the same password P via
`Clipboard.Decrypt` succeeds and restores the original data field M. -/
theorem encrypt_decrypt_roundtrip (c c' : Clipboard) (password freshSalt freshNonce : Bytes)
    (hok : c.Encrypt password freshSalt freshNonce = (c', none)) :
    c'.Decrypt password = ({ c' with Data := c.Data, IsEncrypted := false }, none) := by
  by_cases hs : c.Salt = []
  · rw [encrypt_emptySalt c hs] at hok
    have hc' := congrArg Prod.fst hok
    simp only at hc'
    subst hc'
    exact decrypt_of_shape _ password freshSalt freshNonce c.Data
      (by simp [b64decode_b64encode]) rfl rfl
  · cases hds : b64decode c.Salt with
    | error e =>
        rw [encrypt_badSalt c password freshSalt freshNonce e hs hds] at hok
        simp at hok
    | ok ds =>
        rw [encrypt_goodSalt c password freshSalt freshNonce ds hs hds] at hok
        have hc' := congrArg Prod.fst hok
        simp only at hc'
        subst hc'
        exact decrypt_of_shape _ password ds freshNonce c.Data (by simpa using hds) rfl rfl

/-- Witness for C1 at a concrete record, password, salt and nonce. -/
theorem encrypt_decrypt_roundtrip_witness :
    ((NewClipboard [110] [116] [104, 105]).Encrypt [112] (List.replicate 16 7)
        (List.replicate 12 9)).1.Decrypt [112] =
      ({ ((NewClipboard [110] [116] [104, 105]).Encrypt [112] (List.replicate 16 7)
        (List.replicate 12 9)).1 with Data := [104, 105], IsEncrypted := false }, none) :=
  encrypt_decrypt_roundtrip (NewClipboard [110] [116] [104, 105])
    (((NewClipboard [110] [116] [104, 105]).Encrypt [112] (List.replicate 16 7)
      (List.replicate 12 9)).1)
    [112] (List.replicate 16 7) (List.replicate 12 9) (by decide)

/-- C2: decrypting a record encrypted under password P1 with a
different password P2 fails with the GCM authentication error — the
one fixed error value `gcmAuthFailure` that `gcmOpen` returns on every
tag-verification failure, whether the password, the ciphertext, the
nonce or the salt was wrong — and leaves the record unchanged. -/
theorem decrypt_wrong_password_fails (c c' : Clipboard) (p1 p2 freshSalt freshNonce : Bytes)
    (hne : p2 ≠ p1) (hok : c.Encrypt p1 freshSalt freshNonce = (c', none)) :
    c'.Decrypt p2 = (c', some GoErr.gcmAuthFailure) := by
  by_cases hs : c.Salt = []
  · rw [encrypt_emptySalt c hs] at hok
    have hc' := congrArg Prod.fst hok
    simp only at hc'
    subst hc'
    exact decrypt_of_shape_wrong _ p1 p2 freshSalt freshNonce c.Data
      (by simp [b64decode_b64encode]) rfl rfl hne
  · cases hds : b64decode c.Salt with
    | error e =>
        rw [encrypt_badSalt c p1 freshSalt freshNonce e hs hds] at hok
        simp at hok
    | ok ds =>
        rw [encrypt_goodSalt c p1 freshSalt freshNonce ds hs hds] at hok
        have hc' := congrArg Prod.fst hok
        simp only at hc'
        subst hc'
        exact decrypt_of_shape_wrong _ p1 p2 ds freshNonce c.Data (by simpa using hds) rfl rfl hne

/-- Witness for C2 at a concrete record and distinct passwords. -/
theorem decrypt_wrong_password_fails_witness :
    ((NewClipboard [110] [116] [104, 105]).Encrypt [112] (List.replicate 16 7)
        (List.replicate 12 9)).1.Decrypt [113] =
      (((NewClipboard [110] [116] [104, 105]).Encrypt [112] (List.replicate 16 7)
        (List.replicate 12 9)).1, some GoErr.gcmAuthFailure) :=
  decrypt_wrong_password_fails (NewClipboard [110] [116] [104, 105])
    (((NewClipboard [110] [116] [104, 105]).Encrypt [112] (List.replicate 16 7)
      (List.replicate 12 9)).1)
    [112] [113] (List.replicate 16 7) (List.replicate 12 9) (by decide) (by decide)

/-- C8: `Clipboard.Decrypt` is atomic on failure — whenever it returns
an error (bad base64 in salt, nonce or data, key derivation failure, or
GCM tag failure) the returned record is exactly the input record, every
field included. -/
theorem decrypt_error_leaves_record (c : Clipboard) (password : Bytes) (e : GoErr)
    (herr : (c.Decrypt password).2 = some e) :
    (c.Decrypt password).1 = c := by
  cases h1 : b64decode c.Salt with
  | error e1 => simp [Clipboard.Decrypt, h1]
  | ok ds =>
      cases h2 : b64decode c.Nonce with
      | error e2 => simp [Clipboard.Decrypt, h1, deriveKey_eq, h2]
      | ok dn =>
          cases h3 : b64decode c.Data with
          | error e3 => simp [Clipboard.Decrypt, h1, deriveKey_eq, h2, h3]
          | ok dd =>
              cases h4 : gcmOpen { password := password, salt := ds } dn dd with
              | error e4 => simp [Clipboard.Decrypt, h1, deriveKey_eq, h2, h3, h4]
              | ok pt =>
                  simp [Clipboard.Decrypt, h1, deriveKey_eq, h2, h3, h4] at herr

/-- Witness for C8: a record whose salt is not valid base64 makes
`Decrypt` fail, and the record comes back untouched. -/
theorem decrypt_error_leaves_record_witness :
    (({ IsEncrypted := true, Salt := [1] } : Clipboard).Decrypt [5]).1 =
      { IsEncrypted := true, Salt := [1] } :=
  decrypt_error_leaves_record { IsEncrypted := true, Salt := [1] } [5]
    GoErr.corruptBase64 (by decide)

/-- Counterexample to C3: a record reachable via `NewClipboard` then
`Encrypt` then a successful `Decrypt` has its encrypted flag `false`
while its salt and nonce are still non-empty — `Decrypt` never clears
the cryptographic metadata, so the claimed equivalence fails. -/
theorem decrypt_keeps_salt_counterexample :
    ((((NewClipboard [110] [116] [104, 105]).Encrypt [112] (List.replicate 16 7)
        (List.replicate 12 9)).1.Decrypt [112]).2 = none) ∧
    ((((NewClipboard [110] [116] [104, 105]).Encrypt [112] (List.replicate 16 7)
        (List.replicate 12 9)).1.Decrypt [112]).1.IsEncrypted = false) ∧
    ((((NewClipboard [110] [116] [104, 105]).Encrypt [112] (List.replicate 16 7)
        (List.replicate 12 9)).1.Decrypt [112]).1.Salt ≠ []) ∧
    ((((NewClipboard [110] [116] [104, 105]).Encrypt [112] (List.replicate 16 7)
        (List.replicate 12 9)).1.Decrypt [112]).1.Nonce ≠ []) := by
  decide

/-- C3 amended: `NewClipboard` does establish I1 (flag false and salt,
nonce, credential hash all empty), and a successful `Decrypt` clears
the encrypted flag, but it leaves salt, nonce and credential hash
exactly as they were rather than clearing them, so on a decrypted
record the flag being false does not imply the metadata is absent. -/
theorem decrypt_clears_flag_but_keeps_metadata (c : Clipboard) (password n t d : Bytes)
    (hok : (c.Decrypt password).2 = none) :
    (c.Decrypt password).1.IsEncrypted = false ∧
    (c.Decrypt password).1.Salt = c.Salt ∧
    (c.Decrypt password).1.Nonce = c.Nonce ∧
    (c.Decrypt password).1.PasswordHash = c.PasswordHash ∧
    (NewClipboard n t d).IsEncrypted = false ∧ (NewClipboard n t d).Salt = [] ∧
    (NewClipboard n t d).Nonce = [] ∧ (NewClipboard n t d).PasswordHash = [] := by
  cases h1 : b64decode c.Salt with
  | error e1 => simp [Clipboard.Decrypt, h1] at hok
  | ok ds =>
      cases h2 : b64decode c.Nonce with
      | error e2 => simp [Clipboard.Decrypt, h1, deriveKey_eq, h2] at hok
      | ok dn =>
          cases h3 : b64decode c.Data with
          | error e3 => simp [Clipboard.Decrypt, h1, deriveKey_eq, h2, h3] at hok
          | ok dd =>
              cases h4 : gcmOpen { password := password, salt := ds } dn dd with
              | error e4 => simp [Clipboard.Decrypt, h1, deriveKey_eq, h2, h3, h4] at hok
              | ok pt =>
                  simp [Clipboard.Decrypt, h1, deriveKey_eq, h2, h3, h4, NewClipboard]

/-- Witness for the amended C3 at a concrete encrypted record. -/
theorem decrypt_clears_flag_but_keeps_metadata_witness :
    ((((NewClipboard [110] [116] [104, 105]).Encrypt [112] (List.replicate 16 7)
        (List.replicate 12 9)).1.Decrypt [112]).1.IsEncrypted = false) ∧
    ((((NewClipboard [110] [116] [104, 105]).Encrypt [112] (List.replicate 16 7)
        (List.replicate 12 9)).1.Decrypt [112]).1.Salt =
      ((NewClipboard [110] [116] [104, 105]).Encrypt [112] (List.replicate 16 7)
        (List.replicate 12 9)).1.Salt) := by
  have h := decrypt_clears_flag_but_keeps_metadata
    ((NewClipboard [110] [116] [104, 105]).Encrypt [112] (List.replicate 16 7)
      (List.replicate 12 9)).1 [112] [] [] [] (by decide)
  exact ⟨h.1, h.2.1⟩

/-- Counterexample to C5: the key-derivation function accepts an empty
salt and silently derives a key from it instead of failing. -/
theorem deriveKey_empty_salt_counterexample :
    deriveKey [112] [] = .ok { password := [112], salt := [] } := by
  rfl

/-- C5 amended: `deriveKey` performs no salt validation at all — for
every password and every salt, empty included, it succeeds and derives
the scrypt key of the (password, salt) pair (scrypt itself only
validates its cost parameters). -/
theorem deriveKey_accepts_any_salt (password salt : Bytes) :
    deriveKey password salt = .ok { password := password, salt := salt } :=
  deriveKey_eq password salt

/-- Counterexample to C6: a record with a corrupt stored hash and a
record with a well-formed hash of a different password produce the very
same observable result from `Authenticate` — the bare boolean `false` —
even though the underlying bcrypt comparison distinguishes the two
situations, so `Authenticate` does not surface two different result
kinds. -/
theorem authenticate_no_distinction_counterexample :
    bcryptCompare [9, 9] [112] = .invalidHash ∧
    bcryptCompare (bcryptHash [1, 2] [113]) [112] = .mismatch ∧
    Clipboard.Authenticate { PasswordHash := [9, 9] } [112] =
      Clipboard.Authenticate { PasswordHash := bcryptHash [1, 2] [113] } [112] ∧
    Clipboard.Authenticate { PasswordHash := [9, 9] } [112] = false := by
  decide

/-- C6 amended: `Authenticate` never throws — it returns exactly the
boolean "the bcrypt comparison succeeded", so a malformed stored hash
and a wrong password both collapse to `false` with no way for the
caller to tell that verification could not be attempted. -/
theorem authenticate_collapses_to_bool (c : Clipboard) (password : Bytes) :
    c.Authenticate password =
      decide (bcryptCompare c.PasswordHash password = BcryptCmp.cmpOk) := by
  cases h : bcryptCompare c.PasswordHash password <;> simp [Clipboard.Authenticate, h]

/-- C7: re-encrypting a record whose salt field is already non-empty
leaves the salt unchanged and stores the freshly drawn nonce
base64-encoded; since the fresh draw differs from the nonce bytes the
record already stored, the stored nonce changes across the call (a new
salt is generated only when the salt field is empty, which is not the
case here). -/
theorem reencrypt_keeps_salt_changes_nonce (c : Clipboard) (pw fs fn oldNonce : Bytes)
    (hsalt : c.Salt ≠ [])
    (hold : c.Nonce = b64encode oldNonce)
    (hfresh : fn ≠ oldNonce)
    (hok : (c.Encrypt pw fs fn).2 = none) :
    (c.Encrypt pw fs fn).1.Salt = c.Salt ∧
    (c.Encrypt pw fs fn).1.Nonce = b64encode fn ∧
    (c.Encrypt pw fs fn).1.Nonce ≠ c.Nonce := by
  cases hds : b64decode c.Salt with
  | error e =>
      rw [encrypt_badSalt c pw fs fn e hsalt hds] at hok
      simp at hok
  | ok ds =>
      rw [encrypt_goodSalt c pw fs fn ds hsalt hds]
      refine ⟨rfl, rfl, ?_⟩
      rw [hold]
      intro heq
      exact hfresh (b64encode_injective heq)

/-- Witness for C7 at a concrete encrypted record with a fresh nonce
differing from the stored one. -/
theorem reencrypt_keeps_salt_changes_nonce_witness :
    (({ Salt := b64encode [1], Nonce := b64encode [2] } : Clipboard).Encrypt
        [112] (List.replicate 16 7) [3]).1.Salt =
      ({ Salt := b64encode [1], Nonce := b64encode [2] } : Clipboard).Salt ∧
    (({ Salt := b64encode [1], Nonce := b64encode [2] } : Clipboard).Encrypt
        [112] (List.replicate 16 7) [3]).1.Nonce = b64encode [3] ∧
    (({ Salt := b64encode [1], Nonce := b64encode [2] } : Clipboard).Encrypt
        [112] (List.replicate 16 7) [3]).1.Nonce ≠
      ({ Salt := b64encode [1], Nonce := b64encode [2] } : Clipboard).Nonce :=
  reencrypt_keeps_salt_changes_nonce { Salt := b64encode [1], Nonce := b64encode [2] }
    [112] (List.replicate 16 7) [3] [2] (by decide) (by decide) (by decide) (by decide)

/-- Counterexample to C9: `Encrypt` succeeds on a fresh record whose
`PasswordHash` is empty (the POST handler, not `Encrypt`, populates the
hash), so after this successful call `IsEncrypted` is true while
`PasswordHash` is empty — the claimed "PasswordHash non-empty whenever
IsEncrypted" consequence of invariant I2 does not hold of `Encrypt`
itself. -/
theorem encrypt_empty_passwordHash_counterexample :
    (((NewClipboard [110] [116] [104]).Encrypt [112] (List.replicate 16 7)
        (List.replicate 12 9)).2 = none) ∧
    (((NewClipboard [110] [116] [104]).Encrypt [112] (List.replicate 16 7)
        (List.replicate 12 9)).1.IsEncrypted = true) ∧
    (((NewClipboard [110] [116] [104]).Encrypt [112] (List.replicate 16 7)
        (List.replicate 12 9)).1.PasswordHash = []) := by
  decide

/-- C9 amended: after every successful `Encrypt` with the 16-byte fresh
salt and nonce of the cipher's nonce size that the source draws, the
record has `IsEncrypted` true, stores the fresh nonce base64-encoded
(hence non-empty), has a non-empty salt (the freshly generated one,
base64-encoded, when the salt was empty; the previous one otherwise),
and its data is the base64 encoding of the sealed ciphertext of the
prior data under the scrypt key of (password, decoded salt) — but
`PasswordHash` is left exactly as it was, so the password-hash part of
invariant I2 holds only if the caller set the hash beforehand. -/
theorem encrypt_postcondition (c : Clipboard) (pw fs fn : Bytes)
    (hfs : fs.length = 16) (hfn : fn.length = gcmNonceSize)
    (hok : (c.Encrypt pw fs fn).2 = none) :
    (c.Encrypt pw fs fn).1.IsEncrypted = true ∧
    (c.Encrypt pw fs fn).1.Nonce = b64encode fn ∧
    (c.Encrypt pw fs fn).1.Nonce ≠ [] ∧
    (c.Encrypt pw fs fn).1.Salt ≠ [] ∧
    (c.Encrypt pw fs fn).1.PasswordHash = c.PasswordHash ∧
    (c.Salt = [] → (c.Encrypt pw fs fn).1.Salt = b64encode fs) ∧
    ∃ ds, b64decode (c.Encrypt pw fs fn).1.Salt = .ok ds ∧
      (c.Encrypt pw fs fn).1.Data = b64encode (gcmSeal ⟨pw, ds⟩ fn c.Data) := by
  have hfn_ne : fn ≠ [] := by
    intro h
    rw [h] at hfn
    simp [gcmNonceSize] at hfn
  have hfs_ne : fs ≠ [] := by
    intro h
    rw [h] at hfs
    simp at hfs
  by_cases hs : c.Salt = []
  · rw [encrypt_emptySalt c hs]
    refine ⟨rfl, rfl, b64encode_ne_nil hfn_ne, b64encode_ne_nil hfs_ne, rfl, fun _ => rfl,
      fs, ?_, rfl⟩
    simp [b64decode_b64encode]
  · cases hds : b64decode c.Salt with
    | error e =>
        rw [encrypt_badSalt c pw fs fn e hs hds] at hok
        simp at hok
    | ok ds =>
        rw [encrypt_goodSalt c pw fs fn ds hs hds]
        exact ⟨rfl, rfl, b64encode_ne_nil hfn_ne, hs, rfl, fun h => absurd h hs,
          ds, by simpa using hds, rfl⟩

/-- Witness for the amended C9 at a concrete record. -/
theorem encrypt_postcondition_witness :
    (((NewClipboard [110] [116] [104]).Encrypt [112] (List.replicate 16 7)
        (List.replicate 12 9)).1.IsEncrypted = true) ∧
    (((NewClipboard [110] [116] [104]).Encrypt [112] (List.replicate 16 7)
        (List.replicate 12 9)).1.Salt ≠ []) := by
  have h := encrypt_postcondition (NewClipboard [110] [116] [104]) [112]
    (List.replicate 16 7) (List.replicate 12 9) (by decide) (by decide) (by decide)
  exact ⟨h.1, h.2.2.2.1⟩

/-- C4: in the GET-record flow, `Decrypt` is attempted only after
`Authenticate` succeeds on the supplied password.  When authentication
fails, the handler answers unauthorized, the loaded record is returned
untouched, and no decrypt was attempted; and in every run of the
handler whatsoever, a decrypt attempt implies the loaded record was
encrypted and `Authenticate` succeeded on the supplied password. -/
theorem getHandler_auth_gates_decrypt (i : Int) (c : Clipboard) (pw : Bytes)
    (henc : c.IsEncrypted = true) (hauth : c.Authenticate pw = false) :
    Server.GetHandler (some i) (.ok (some c)) (some pw) = (.unauthorized, some c, false) ∧
    ∀ idp dbGet auth, (Server.GetHandler idp dbGet auth).2.2 = true →
      ∃ j c0 pw0, idp = some j ∧ dbGet = .ok (some c0) ∧ auth = some pw0 ∧
        c0.IsEncrypted = true ∧ c0.Authenticate pw0 = true := by
  constructor
  · simp [Server.GetHandler, henc, hauth]
  · intro idp dbGet auth hdec
    match idp with
    | none => simp [Server.GetHandler] at hdec
    | some j =>
        match dbGet with
        | .error e => simp [Server.GetHandler] at hdec
        | .ok none => simp [Server.GetHandler] at hdec
        | .ok (some c0) =>
            refine ⟨j, c0, ?_⟩
            by_cases h0 : c0.IsEncrypted
            · match auth with
              | none => simp [Server.GetHandler, h0] at hdec
              | some pw0 =>
                  by_cases h1 : c0.Authenticate pw0
                  · exact ⟨pw0, rfl, rfl, rfl, h0, h1⟩
                  · simp [Server.GetHandler, h0, h1] at hdec
            · simp [Server.GetHandler, h0] at hdec

/-- Witness for C4 at a concrete encrypted record with a wrong
password. -/
theorem getHandler_auth_gates_decrypt_witness :
    Server.GetHandler (some 1)
        (.ok (some { IsEncrypted := true, PasswordHash := bcryptHash [1, 2] [112] }))
        (some [113]) =
      (.unauthorized, some { IsEncrypted := true, PasswordHash := bcryptHash [1, 2] [112] },
        false) :=
  (getHandler_auth_gates_decrypt 1 { IsEncrypted := true, PasswordHash := bcryptHash [1, 2] [112] }
    [113] (by decide) (by decide)).1

/-- C10: the row update run by `service.Update` sets only the name,
type, data and nonce columns of the rows matching the record's id: in
every row of the updated table the id, is_encrypted, password_hash and
salt columns are exactly as before, and rows whose id differs from the
record's id are entirely unchanged. -/
theorem update_preserves_frame_columns (c : Clipboard) (table : List Row) (i : Nat) :
    (service.Update c table)[i]?.map Row.id = table[i]?.map Row.id ∧
    (service.Update c table)[i]?.map Row.is_encrypted = table[i]?.map Row.is_encrypted ∧
    (service.Update c table)[i]?.map Row.password_hash = table[i]?.map Row.password_hash ∧
    (service.Update c table)[i]?.map Row.salt = table[i]?.map Row.salt ∧
    (∀ row, table[i]? = some row → row.id ≠ c.Id → (service.Update c table)[i]? = some row) := by
  have hmap : (service.Update c table)[i]? = table[i]?.map (updateRowSql c) := by
    simp [service.Update]
  cases hrow : table[i]? with
  | none => simp [hmap, hrow]
  | some row =>
      simp only [hmap, hrow, Option.map_some]
      by_cases hid : row.id = c.Id
      · refine ⟨?_, ?_, ?_, ?_, ?_⟩ <;>
          simp [updateRowSql, hid]
      · simp [updateRowSql, hid]

/-- Witness for C10 at a concrete table containing a matching and a
non-matching row. -/
theorem update_preserves_frame_columns_witness :
    (service.Update { Id := 1, Nonce := [5] }
        [{ id := 1, name := [], rowType := [], data := [], is_encrypted := true,
           password_hash := some [7], salt := some [8], nonce := some [9] }])[0]?.map
      Row.salt = some (some [8]) := by
  have h := update_preserves_frame_columns { Id := 1, Nonce := [5] }
    [{ id := 1, name := [], rowType := [], data := [], is_encrypted := true,
       password_hash := some [7], salt := some [8], nonce := some [9] }] 0
  rw [h.2.2.2.1]
  rfl
